import Mathlib

/-!
Verification of the node-mvc-demo item application.

Shallow embedding of:
  * `models/item.js` — the `Item` schema (an id assigned by the store and a
    required `name` string);
  * `controllers/itemController.js` — the three handlers `getItems`,
    `addItem`, `deleteItem`;
  * `config/database.js` — `connectToDatabase` with its fail-fast
    `process.exit(1)` on connection error;
  * `app.js` — the bootstrap sequence, modelled as the trace of events it
    produces under JavaScript's event-loop semantics.

The document store is modelled as the list of persisted items together with
a fresh-id counter (`StoreState`); the store assigns each created item a
fresh identifier, and identifiers are unique (`nodupIds`), reflecting the
unique `_id` index of the underlying store.  A handler's possible store
failure (unreachable store: the awaited driver call rejects and control
jumps to the `catch` block) is modelled by a boolean `fail` parameter.
-/

namespace NodeMvc

/-- An `Item` record: `_id` assigned by the store plus the `name` field,
from the schema `{ name: { type: String, required: true } }`. -/
structure Item where
  id : Nat
  name : String
deriving DecidableEq, Repr

/-- The state of the document store: the persisted items in store order and
the counter from which the store assigns fresh identifiers. -/
structure StoreState where
  items : List Item
  nextId : Nat
deriving DecidableEq, Repr

/-- An HTTP response produced by a handler:
`res.render('index', { items })`, `res.redirect('/')` (Express sends 302),
or `res.status(500).send(msg)`. -/
inductive Response where
  | render (view : String) (items : List Item)
  | redirect (status : Nat) (location : String)
  | send (status : Nat) (body : String)
deriving DecidableEq, Repr

/-- JavaScript truthiness of `req.body.name`: `!name` holds when the field
is absent (`undefined`) or the empty string. -/
def isFalsy : Option String → Bool
  | none => true
  | some s => s == ""

/-- `exports.getItems`: `Item.find()` then `res.render('index', { items })`;
on store failure the `catch` block sends `res.status(500).send('Error fetching items')`. -/
def getItems (fail : Bool) (s : StoreState) : StoreState × Response :=
  if fail then (s, .send 500 "Error fetching items")
  else (s, .render "index" s.items)

/-- `exports.addItem`: destructure `name` from the body; `if (!name) return
res.redirect('/')`; otherwise `new Item({ name }).save()` (the store assigns
a fresh id) and `res.redirect('/')`; a rejected `save()` lands in the
`catch` block, which sends `res.status(500).send('Error saving item')`.
The falsy check precedes the store call, so a falsy name never reaches the
store. -/
def addItem (fail : Bool) (name : Option String) (s : StoreState) :
    StoreState × Response :=
  if isFalsy name then (s, .redirect 302 "/")
  else if fail then (s, .send 500 "Error saving item")
  else ({ items := s.items ++ [{ id := s.nextId, name := name.getD "" }],
          nextId := s.nextId + 1 },
        .redirect 302 "/")

/-- `Item.findByIdAndDelete(id)`: deletes the (at most one, by the unique
`_id` index) document whose id matches, a no-op when no document matches. -/
def deleteById (i : Nat) : List Item → List Item
  | [] => []
  | it :: rest => if it.id = i then rest else it :: deleteById i rest

/-- `exports.deleteItem`: `Item.findByIdAndDelete(id)` then
`res.redirect('/')`; on store failure the `catch` block sends
`res.status(500).send('Error deleting item')`. -/
def deleteItem (fail : Bool) (i : Nat) (s : StoreState) :
    StoreState × Response :=
  if fail then (s, .send 500 "Error deleting item")
  else ({ s with items := deleteById i s.items }, .redirect 302 "/")

/-- A finite sequence of Add operations against a reachable store, run in
order. -/
def runAdds (names : List String) (s : StoreState) : StoreState :=
  match names with
  | [] => s
  | n :: rest => runAdds rest (addItem false (some n) s).1

/-- The data-model invariant: every persisted item has a non-empty name. -/
def itemsValid (s : StoreState) : Prop :=
  ∀ it ∈ s.items, it.name ≠ ""

/-- The store's unique-`_id` index: all persisted identifiers are distinct. -/
def nodupIds (s : StoreState) : Prop :=
  (s.items.map Item.id).Nodup

instance (s : StoreState) : Decidable (itemsValid s) := by
  unfold itemsValid; infer_instance

instance (s : StoreState) : Decidable (nodupIds s) := by
  unfold nodupIds; infer_instance

/-! ### Bootstrap model (`app.js` and `config/database.js`) -/

/-- Outcome of `connectToDatabase`: the awaited `mongoose.connect` either
resolves (`Database Connected!`) or rejects, in which case the `catch`
block calls `process.exit(1)`. -/
inductive ConnectOutcome where
  | connected
  | fatalExit (code : Nat)
deriving DecidableEq, Repr

/-- `connectToDatabase` from `config/database.js`, as a function of whether
the connection attempt succeeds: on success it logs and returns, on failure
it calls `process.exit(1)`. -/
def connectToDatabase (ok : Bool) : ConnectOutcome :=
  if ok then .connected else .fatalExit 1

/-- Observable events of the bootstrap: the connection attempt is started,
the listener starts listening, the connection attempt completes with
success, or the process exits with a code. -/
inductive BootEvent where
  | connectStart
  | listen
  | connectSuccess
  | processExit (code : Nat)
deriving DecidableEq, Repr

def isStart : BootEvent → Bool
  | .connectStart => true
  | _ => false

def isListen : BootEvent → Bool
  | .listen => true
  | _ => false

/-- A completion of the connection attempt: success, or the fatal exit. -/
def isComplete : BootEvent → Bool
  | .connectSuccess => true
  | .processExit _ => true
  | _ => false

def isExit : BootEvent → Bool
  | .processExit _ => true
  | _ => false

/-- The event trace of `app.js` as a function of whether the store
connection succeeds.  `app.js` invokes `connectToDatabase()` WITHOUT
awaiting it: the async body runs synchronously up to
`await mongoose.connect(...)` (event `connectStart`) and returns a pending
promise; the module's synchronous remainder then configures the app and
calls `app.listen(port, ...)` (event `listen`); only on a later event-loop
turn does the awaited connection settle, running either the success log or
the `catch` block with `process.exit(1)`.  So in every execution the trace
is `connectStart`, then `listen`, then the completion. -/
def bootTrace (ok : Bool) : List BootEvent :=
  [.connectStart, .listen] ++
    match connectToDatabase ok with
    | .connected => [.connectSuccess]
    | .fatalExit c => [.processExit c]

/-! ### Helper lemmas -/

lemma isFalsy_some_of_ne {n : String} (h : n ≠ "") : isFalsy (some n) = false := by
  simp [isFalsy, h]

lemma addItem_items_of_ne {n : String} (h : n ≠ "") (s : StoreState) :
    (addItem false (some n) s).1.items = s.items ++ [⟨s.nextId, n⟩] := by
  simp [addItem, isFalsy_some_of_ne h]

lemma runAdds_names (names : List String) (s : StoreState)
    (h : ∀ n ∈ names, n ≠ "") :
    (runAdds names s).items.map Item.name = s.items.map Item.name ++ names := by
  induction names generalizing s with
  | nil => simp [runAdds]
  | cons n rest ih =>
    have hn : n ≠ "" := h n (by simp)
    have hrest : ∀ m ∈ rest, m ≠ "" := fun m hm => h m (by simp [hm])
    rw [runAdds, ih _ hrest, addItem_items_of_ne hn]
    simp

lemma deleteById_eq_of_not_mem {i : Nat} {l : List Item}
    (h : i ∉ l.map Item.id) : deleteById i l = l := by
  induction l with
  | nil => rfl
  | cons it rest ih =>
    simp only [List.map_cons, List.mem_cons] at h
    push_neg at h
    rw [deleteById, if_neg (fun he => h.1 he.symm), ih h.2]

lemma not_mem_map_id_deleteById {i : Nat} {l : List Item}
    (h : (l.map Item.id).Nodup) : i ∉ (deleteById i l).map Item.id := by
  induction l with
  | nil => simp [deleteById]
  | cons it rest ih =>
    simp only [List.map_cons, List.nodup_cons] at h
    rw [deleteById]
    by_cases hid : it.id = i
    · rw [if_pos hid]
      intro hmem
      exact h.1 (hid ▸ hmem)
    · rw [if_neg hid]
      simp only [List.map_cons, List.mem_cons]
      push_neg
      exact ⟨fun he => hid he.symm, ih h.2⟩

lemma length_deleteById_of_mem {i : Nat} {l : List Item}
    (h : i ∈ l.map Item.id) : (deleteById i l).length + 1 = l.length := by
  induction l with
  | nil => simp at h
  | cons it rest ih =>
    rw [deleteById]
    by_cases hid : it.id = i
    · rw [if_pos hid]; simp
    · rw [if_neg hid]
      simp only [List.map_cons, List.mem_cons] at h
      rcases h with h | h
      · exact absurd h.symm hid
      · simp only [List.length_cons, ih h]

lemma mem_deleteById_of_mem_ne {i : Nat} {it : Item} {l : List Item}
    (hmem : it ∈ l) (hne : it.id ≠ i) : it ∈ deleteById i l := by
  induction l with
  | nil => simp at hmem
  | cons hd rest ih =>
    rw [deleteById]
    rcases List.mem_cons.mp hmem with h | h
    · subst h
      rw [if_neg hne]
      simp
    · by_cases hid : hd.id = i
      · rw [if_pos hid]; exact h
      · rw [if_neg hid]
        exact List.mem_cons_of_mem _ (ih h)

lemma deleteById_subset {i : Nat} {l : List Item} :
    ∀ it ∈ deleteById i l, it ∈ l := by
  induction l with
  | nil => simp [deleteById]
  | cons hd rest ih =>
    intro it hmem
    rw [deleteById] at hmem
    by_cases hid : hd.id = i
    · rw [if_pos hid] at hmem
      exact List.mem_cons_of_mem _ hmem
    · rw [if_neg hid] at hmem
      rcases List.mem_cons.mp hmem with h | h
      · exact h ▸ List.mem_cons_self _ _
      · exact List.mem_cons_of_mem _ (ih it h)

lemma deleteById_idem {i : Nat} {l : List Item}
    (h : (l.map Item.id).Nodup) :
    deleteById i (deleteById i l) = deleteById i l :=
  deleteById_eq_of_not_mem (not_mem_map_id_deleteById h)

lemma filter_ne_of_not_mem {i : Nat} {l : List Item}
    (h : i ∉ l.map Item.id) : l.filter (fun it => it.id != i) = l := by
  induction l with
  | nil => rfl
  | cons it rest ih =>
    simp only [List.map_cons, List.mem_cons] at h
    push_neg at h
    rw [List.filter_cons, if_pos (by simpa using fun he => h.1 he.symm),
        ih h.2]

lemma deleteById_eq_filter {i : Nat} {l : List Item}
    (h : (l.map Item.id).Nodup) :
    deleteById i l = l.filter (fun it => it.id != i) := by
  induction l with
  | nil => rfl
  | cons it rest ih =>
    simp only [List.map_cons, List.nodup_cons] at h
    rw [deleteById, List.filter_cons]
    by_cases hid : it.id = i
    · rw [if_pos hid, if_neg (by simp [hid]),
          filter_ne_of_not_mem (hid ▸ h.1)]
    · rw [if_neg hid, if_pos (by simpa using hid), ih h.2]

lemma isFalsy_false_name_ne {name : Option String}
    (h : isFalsy name = false) : name.getD "" ≠ "" := by
  match name with
  | none => simp [isFalsy] at h
  | some n =>
    simp only [isFalsy, beq_eq_false_iff_ne, ne_eq] at h
    simpa using h

/-! ### Claims -/

/-- C1: starting from any store state, running any finite sequence of Add
operations with non-empty names against a reachable store leaves the store
holding exactly the prior contents plus that multiset of submitted names
(order unconstrained, stated as a multiset equation on the names), a
subsequent List renders exactly those items, and each successful Add
appends exactly one new record to the store. -/
theorem c1_adds_then_list (names : List String) (s : StoreState)
    (n : String) (st : StoreState)
    (h : ∀ m ∈ names, m ≠ "") (hn : n ≠ "") :
    ((runAdds names s).items.map Item.name : Multiset String) =
      (s.items.map Item.name : Multiset String) + (names : Multiset String)
    ∧ getItems false (runAdds names s) =
        (runAdds names s, Response.render "index" (runAdds names s).items)
    ∧ (addItem false (some n) st).1.items = st.items ++ [⟨st.nextId, n⟩] := by
  refine ⟨?_, ?_, addItem_items_of_ne hn st⟩
  · rw [runAdds_names names s h]
    exact (Multiset.coe_add _ _).symm
  · rfl

/-- C1 witness: two Adds with the names Milk and Eggs onto a store holding
one item named Bread. -/
theorem c1_adds_then_list_witness :
    ((runAdds ["Milk", "Eggs"] ⟨[⟨0, "Bread"⟩], 1⟩).items.map Item.name :
        Multiset String) =
      (((⟨[⟨0, "Bread"⟩], 1⟩ : StoreState).items.map Item.name :
          List String) : Multiset String) +
        ((["Milk", "Eggs"] : List String) : Multiset String)
    ∧ getItems false (runAdds ["Milk", "Eggs"] ⟨[⟨0, "Bread"⟩], 1⟩) =
        (runAdds ["Milk", "Eggs"] ⟨[⟨0, "Bread"⟩], 1⟩,
          Response.render "index"
            (runAdds ["Milk", "Eggs"] ⟨[⟨0, "Bread"⟩], 1⟩).items)
    ∧ (addItem false (some "Tea") ⟨[], 0⟩).1.items =
        (⟨[], 0⟩ : StoreState).items ++
          [⟨(⟨[], 0⟩ : StoreState).nextId, "Tea"⟩] :=
  c1_adds_then_list ["Milk", "Eggs"] ⟨[⟨0, "Bread"⟩], 1⟩ "Tea" ⟨[], 0⟩
    (by decide) (by decide)

/-- C2: the invariant that every persisted item has a non-empty name holds
for the empty store and is preserved by List, by Add with any submitted
name (absent, empty, or non-empty) and any store availability, and by
Delete with any id, because `addItem` rejects creation when the submitted
name is falsy. -/
theorem c2_nonempty_name_invariant (fail : Bool) (name : Option String)
    (i : Nat) (s : StoreState) (h : itemsValid s) :
    itemsValid ⟨[], 0⟩
    ∧ itemsValid (getItems fail s).1
    ∧ itemsValid (addItem fail name s).1
    ∧ itemsValid (deleteItem fail i s).1 := by
  refine ⟨by intro it hit; simp at hit, ?_, ?_, ?_⟩
  · cases fail <;> exact h
  · unfold addItem
    by_cases hf : isFalsy name
    · rw [if_pos hf]; exact h
    · rw [if_neg hf]
      cases fail with
      | true => exact h
      | false =>
        simp only [if_false, Bool.false_eq_true]
        intro it hit
        rcases List.mem_append.mp hit with hmem | hmem
        · exact h it hmem
        · have : it = ⟨s.nextId, name.getD ""⟩ := by simpa using hmem
          rw [this]
          exact isFalsy_false_name_ne (by simpa using hf)
  · unfold deleteItem
    cases fail with
    | true => exact h
    | false =>
      simp only [if_false, Bool.false_eq_true]
      intro it hit
      exact h it (deleteById_subset it hit)

/-- C2 witness: the invariant after adding the name Milk to a valid
one-item store. -/
theorem c2_nonempty_name_invariant_witness :
    itemsValid ⟨[], 0⟩
    ∧ itemsValid (getItems false ⟨[⟨0, "Bread"⟩], 1⟩).1
    ∧ itemsValid (addItem false (some "Milk") ⟨[⟨0, "Bread"⟩], 1⟩).1
    ∧ itemsValid (deleteItem false 0 ⟨[⟨0, "Bread"⟩], 1⟩).1 :=
  c2_nonempty_name_invariant false (some "Milk") 0 ⟨[⟨0, "Bread"⟩], 1⟩
    (by decide)

/-- C3: an Add whose submitted name is absent or empty leaves the store
state (items and id counter) unchanged and responds with a 302 redirect to
`/`, never an error, whatever the store availability: the falsy check runs
before any store call. -/
theorem c3_falsy_add_noop (fail : Bool) (name : Option String)
    (s : StoreState) (h : isFalsy name = true) :
    addItem fail name s = (s, Response.redirect 302 "/") := by
  simp [addItem, h]

/-- C3 witness: an absent name against an unreachable store, and note the
empty string is also falsy. -/
theorem c3_falsy_add_noop_witness :
    addItem true none ⟨[⟨0, "Bread"⟩], 1⟩ =
      (⟨[⟨0, "Bread"⟩], 1⟩, Response.redirect 302 "/") :=
  c3_falsy_add_noop true none ⟨[⟨0, "Bread"⟩], 1⟩ (by decide)

/-- C4: Delete is idempotent on any store state with distinct ids (the
store's unique id index): deleting the same id twice yields the same store
state as deleting it once; and Delete with an id not present leaves the
store state unchanged and responds with a 302 redirect to `/`, not an
error. -/
theorem c4_delete_idempotent_absent_noop (i j : Nat) (s t : StoreState)
    (hs : nodupIds s) (hj : j ∉ t.items.map Item.id) :
    (deleteItem false i (deleteItem false i s).1).1 = (deleteItem false i s).1
    ∧ (deleteItem false j t).1 = t
    ∧ (deleteItem false j t).2 = Response.redirect 302 "/" := by
  refine ⟨?_, ?_, rfl⟩
  · simp only [deleteItem, if_false, Bool.false_eq_true]
    rw [deleteById_idem hs]
  · simp only [deleteItem, if_false, Bool.false_eq_true]
    rw [deleteById_eq_of_not_mem hj]

/-- C4 witness: deleting id 0 twice from a two-item store, and deleting the
absent id 5 from it. -/
theorem c4_delete_idempotent_absent_noop_witness :
    (deleteItem false 0
        (deleteItem false 0 ⟨[⟨0, "Bread"⟩, ⟨1, "Milk"⟩], 2⟩).1).1 =
      (deleteItem false 0 ⟨[⟨0, "Bread"⟩, ⟨1, "Milk"⟩], 2⟩).1
    ∧ (deleteItem false 5 ⟨[⟨0, "Bread"⟩, ⟨1, "Milk"⟩], 2⟩).1 =
        ⟨[⟨0, "Bread"⟩, ⟨1, "Milk"⟩], 2⟩
    ∧ (deleteItem false 5 ⟨[⟨0, "Bread"⟩, ⟨1, "Milk"⟩], 2⟩).2 =
        Response.redirect 302 "/" :=
  c4_delete_idempotent_absent_noop 0 5 ⟨[⟨0, "Bread"⟩, ⟨1, "Milk"⟩], 2⟩
    ⟨[⟨0, "Bread"⟩, ⟨1, "Milk"⟩], 2⟩ (by decide) (by decide)

/-- C5: on a store with distinct ids (the store's unique id index)
containing an item with id `i`, Delete removes exactly that record: `i` is
absent afterwards, the count drops by exactly one, and the remaining items
are exactly the original items whose id differs from `i`, unchanged. -/
theorem c5_delete_present (i : Nat) (s : StoreState) (h : nodupIds s)
    (hmem : i ∈ s.items.map Item.id) :
    i ∉ (deleteItem false i s).1.items.map Item.id
    ∧ (deleteItem false i s).1.items.length + 1 = s.items.length
    ∧ (deleteItem false i s).1.items =
        s.items.filter (fun it => it.id != i) := by
  simp only [deleteItem, if_false, Bool.false_eq_true]
  exact ⟨not_mem_map_id_deleteById h, length_deleteById_of_mem hmem,
    deleteById_eq_filter h⟩

/-- C5 witness: deleting id 0 from a two-item store. -/
theorem c5_delete_present_witness :
    0 ∉ (deleteItem false 0 ⟨[⟨0, "Bread"⟩, ⟨1, "Milk"⟩], 2⟩).1.items.map
        Item.id
    ∧ (deleteItem false 0 ⟨[⟨0, "Bread"⟩, ⟨1, "Milk"⟩], 2⟩).1.items.length
        + 1 =
        (⟨[⟨0, "Bread"⟩, ⟨1, "Milk"⟩], 2⟩ : StoreState).items.length
    ∧ (deleteItem false 0 ⟨[⟨0, "Bread"⟩, ⟨1, "Milk"⟩], 2⟩).1.items =
        (⟨[⟨0, "Bread"⟩, ⟨1, "Milk"⟩], 2⟩ : StoreState).items.filter
          (fun it => it.id != 0) :=
  c5_delete_present 0 ⟨[⟨0, "Bread"⟩, ⟨1, "Milk"⟩], 2⟩ (by decide)
    (by decide)

/-- C6: when the store call fails, each handler leaves the store unchanged
and responds 500 with the fixed plain-text body naming the operation:
List with `Error fetching items`, Add (whenever the save is attempted,
i.e. the name is not falsy) with `Error saving item`, Delete with
`Error deleting item`; the `catch` blocks return a response rather than
rethrowing, so the process never crashes, and no handler retries the store
call. -/
theorem c6_store_failure_500 (s : StoreState) (i : Nat)
    (name : Option String) (h : isFalsy name = false) :
    getItems true s = (s, Response.send 500 "Error fetching items")
    ∧ addItem true name s = (s, Response.send 500 "Error saving item")
    ∧ deleteItem true i s = (s, Response.send 500 "Error deleting item") := by
  refine ⟨rfl, ?_, rfl⟩
  simp [addItem, h]

/-- C6 witness: the three handlers against an unreachable store, with a
non-empty submitted name for Add. -/
theorem c6_store_failure_500_witness :
    getItems true ⟨[⟨0, "Bread"⟩], 1⟩ =
      (⟨[⟨0, "Bread"⟩], 1⟩, Response.send 500 "Error fetching items")
    ∧ addItem true (some "Milk") ⟨[⟨0, "Bread"⟩], 1⟩ =
        (⟨[⟨0, "Bread"⟩], 1⟩, Response.send 500 "Error saving item")
    ∧ deleteItem true 0 ⟨[⟨0, "Bread"⟩], 1⟩ =
        (⟨[⟨0, "Bread"⟩], 1⟩, Response.send 500 "Error deleting item") :=
  c6_store_failure_500 ⟨[⟨0, "Bread"⟩], 1⟩ 0 (some "Milk") (by decide)

/-- C7 counterexample: in the successful-connection execution, the listen
event and a completion event both occur in the bootstrap trace, yet the
first completion does not precede the listen event: `app.js` calls
`connectToDatabase()` without awaiting it, so the listener starts before
the connection attempt completes. -/
theorem c7_counterexample :
    (bootTrace true).findIdx isListen < (bootTrace true).length
    ∧ (bootTrace true).findIdx isComplete < (bootTrace true).length
    ∧ ¬ (bootTrace true).findIdx isComplete <
          (bootTrace true).findIdx isListen := by
  decide

/-- C7 amended: in every execution of the bootstrap, the connection attempt
is initiated before the listener begins listening, but the listener begins
listening before the connection attempt completes (with success or with
the fatal exit), because the bootstrap does not await the connection. -/
theorem c7_amended_listen_before_completion (ok : Bool) :
    (bootTrace ok).findIdx isStart < (bootTrace ok).findIdx isListen
    ∧ (bootTrace ok).findIdx isListen < (bootTrace ok).findIdx isComplete
    ∧ (bootTrace ok).findIdx isComplete < (bootTrace ok).length := by
  cases ok <;> decide

/-- C8: when the connection attempt fails, `connectToDatabase` ends in
`process.exit(1)` — a non-zero exit code; the exit is the final event of
the failure trace (so nothing, in particular no listening, is reached from
the failure path), the connection is attempted exactly once (no retry),
and when the connection succeeds no exit event ever occurs (the process
runs until externally terminated). -/
theorem c8_fail_fast :
    connectToDatabase false = ConnectOutcome.fatalExit 1
    ∧ (bootTrace false).getLast? = some (BootEvent.processExit 1)
    ∧ (bootTrace false).countP isStart = 1
    ∧ (bootTrace false).countP isExit = 1
    ∧ (bootTrace true).countP isExit = 0 := by
  decide

/-- C9: List is read-only: on the success path and on the failure path,
`getItems` returns the store state it was given, unchanged. -/
theorem c9_list_readonly (fail : Bool) (s : StoreState) :
    (getItems fail s).1 = s := by
  cases fail <;> rfl

/-- C10: a non-failing Delete produces the identical response — a 302
redirect to `/` — on a store that contains the id and on a store that does
not, so the caller cannot observe from the response whether anything was
deleted. -/
theorem c10_delete_response_independent (i : Nat) (s t : StoreState)
    (hs : i ∈ s.items.map Item.id) (ht : i ∉ t.items.map Item.id) :
    (deleteItem false i s).2 = (deleteItem false i t).2
    ∧ (deleteItem false i s).2 = Response.redirect 302 "/" :=
  ⟨rfl, rfl⟩

/-- C10 witness: deleting id 0 from a store that has it and from an empty
store. -/
theorem c10_delete_response_independent_witness :
    (deleteItem false 0 ⟨[⟨0, "Bread"⟩], 1⟩).2 =
      (deleteItem false 0 ⟨[], 0⟩).2
    ∧ (deleteItem false 0 ⟨[⟨0, "Bread"⟩], 1⟩).2 =
        Response.redirect 302 "/" :=
  c10_delete_response_independent 0 ⟨[⟨0, "Bread"⟩], 1⟩ ⟨[], 0⟩
    (by decide) (by decide)

end NodeMvc
